import Mathlib

/-!
Verification of the MuseTalk operational scripts: a shallow embedding of
`musetalk_inference.py`, `download_models.py` and `troubleshooting_fixes.py`.

Filesystem paths are strings; the environment (filesystem contents, network
outcomes, subprocess results, points where an OS call raises) is an explicit
oracle record passed to each modelled procedure.  Python exceptions are
modelled with `Except String`: a procedure that lets an exception escape
returns `.error`, one that catches it returns a normal value.  Side effects
are recorded in explicit traces (files saved, removed, copied, commands
spawned, downloads attempted).
-/

/-- Model of `os.path.join` for the relative one-separator joins the scripts use. -/
def pathJoin (a b : String) : String := a ++ "/" ++ b

/-- Model of `os.path.dirname`: everything before the last slash, `""` if none. -/
def dirname (p : String) : String :=
  match p.toList.reverse.dropWhile (fun c => c ≠ '/') with
  | [] => ""
  | _ :: rest => String.mk rest.reverse

/-- Model of `os.path.basename`: everything after the last slash. -/
def basename (p : String) : String :=
  String.mk (p.toList.reverse.takeWhile (fun c => c ≠ '/')).reverse

/-- Whether the first character list starts the second. -/
def charsPre : List Char → List Char → Bool
  | [], _ => true
  | _ :: _, [] => false
  | a :: as, b :: bs => a == b && charsPre as bs

/-- Whether the first character list occurs inside the second. -/
def charsHas (pat : List Char) : List Char → Bool
  | [] => charsPre pat []
  | c :: cs => charsPre pat (c :: cs) || charsHas pat cs

/-- Python's substring test `pat in s`. -/
def strContains (s pat : String) : Bool := charsHas pat.toList s.toList

/-- Python's `s.endswith(suff)`. -/
def strEndsWith (s suff : String) : Bool :=
  charsPre suff.toList.reverse s.toList.reverse

/-! ## Inference orchestrator (`musetalk_inference.py`) -/

/-- The merged inference parameters (`MuseTalkInference.default_params` keys). -/
structure Params where
  bbox_shift : Int
  batch_size : Nat
  fps : Nat
  version : String
  expression_scale : Rat
deriving DecidableEq, Repr

/-- `MuseTalkInference.default_params` (lines 15-21). -/
def default_params : Params :=
  { bbox_shift := 0, batch_size := 4, fps := 25, version := "v15"
    expression_scale := 1 }

/-- The `**kwargs` overrides a caller may pass to `create_config`. -/
structure Overrides where
  bbox_shift : Option Int := none
  batch_size : Option Nat := none
  fps : Option Nat := none
  version : Option String := none
  expression_scale : Option Rat := none
deriving DecidableEq, Repr

/-- `params = {**self.default_params, **kwargs}` (line 27). -/
def mergeParams (d : Params) (o : Overrides) : Params :=
  { bbox_shift := o.bbox_shift.getD d.bbox_shift
    batch_size := o.batch_size.getD d.batch_size
    fps := o.fps.getD d.fps
    version := o.version.getD d.version
    expression_scale := o.expression_scale.getD d.expression_scale }

/-- The nested config written under the `task1` key (lines 29-36). -/
structure TaskConfig where
  video_path : String
  audio_path : String
  bbox_shift : Int
  result_name : String
deriving DecidableEq, Repr

/-- The whole config document: one task entry keyed `task1`. -/
structure ConfigDoc where
  task1 : TaskConfig
deriving DecidableEq, Repr

/-- `MuseTalkInference.create_config` (lines 23-38): merge defaults with the
overrides and build the nested config. -/
def create_config (video_path audio_path : String) (o : Overrides) :
    ConfigDoc × Params :=
  let params := mergeParams default_params o
  ({ task1 :=
      { video_path := video_path, audio_path := audio_path
        bbox_shift := params.bbox_shift, result_name := "lipsync_output.mp4" } },
   params)

/-- The fixed config file path `configs/inference/inference.yaml` (lines 66-68). -/
def config_path : String := "configs/inference/inference.yaml"

/-- The subprocess command list built at lines 72-83. -/
def cmdFor (result_dir : String) (params : Params) : List String :=
  ["python", "-m", "scripts.inference",
   "--inference_config", config_path,
   "--result_dir", result_dir,
   "--unet_model_path", "models/musetalkV15/unet.pth",
   "--unet_config", "models/musetalkV15/musetalk.json",
   "--version", params.version,
   "--ffmpeg_path", "/usr/bin/ffmpeg",
   "--whisper_dir", "./models/whisper",
   "--batch_size", toString params.batch_size,
   "--fps", toString params.fps]

/-- Captured stdout/stderr/returncode of the external inference process. -/
structure SubOutput where
  stdout : String
  stderr : String
  exitCode : Int
deriving DecidableEq, Repr

/-- Environment oracle for one `run_inference` call: which paths exist, and the
outcome (`.ok` result or `.error` = raised exception) of each OS interaction
the function performs. -/
structure Env where
  pathExists : String → Bool
  /-- `os.makedirs("configs/inference", exist_ok=True)` (line 67). -/
  makedirsConfig : Except String Unit
  /-- `OmegaConf.save(config, config_path)` (line 69). -/
  saveConfig : ConfigDoc → Except String Unit
  /-- `os.listdir(output_dir)` (line 88). -/
  listOutputDir : Except String (List String)
  /-- `os.remove(path)` for one cleanup target (line 91). -/
  removeRes : String → Except String Unit
  /-- `subprocess.run(cmd, ...)` (line 96). -/
  runSub : List String → Except String SubOutput
  /-- `os.walk(output_dir)` flattened to (root, filename) pairs in scan order
  (lines 108-109). -/
  walkRes : Except String (List (String × String))
  /-- `shutil.copy(target_file, output_path)` (line 124). -/
  copyRes : String → String → Except String Unit
  /-- `os.path.getsize(output_path)` (line 127). -/
  sizeRes : String → Except String Nat

/-- Side effects performed by one `run_inference` call. -/
structure RunTrace where
  /-- config files written, as (path, contents) pairs. -/
  saved : List (String × ConfigDoc) := []
  /-- paths removed by the pre-run cleanup. -/
  removed : List String := []
  /-- subprocess command lines spawned. -/
  spawned : List (List String) := []
  /-- file copies performed, as (source, destination) pairs. -/
  copies : List (String × String) := []
deriving DecidableEq, Repr

/-- The cleanup loop (lines 88-93): delete every non-temp `.mp4` in the output
directory, swallowing individual `os.remove` failures; returns the paths
actually removed. -/
def cleanup (env : Env) (output_dir : String) (names : List String) :
    List String :=
  names.filterMap fun f =>
    if strEndsWith f ".mp4" && !(strContains f "temp") then
      match env.removeRes (pathJoin output_dir f) with
      | .ok _ => some (pathJoin output_dir f)
      | .error _ => none
    else none

/-- The recursive scan (lines 107-112): full paths of `.mp4`/`.avi` files whose
filename does not contain `"temp"`, in walk order. -/
def scanOutputs (walk : List (String × String)) : List String :=
  walk.filterMap fun rf =>
    if (strEndsWith rf.2 ".mp4" || strEndsWith rf.2 ".avi")
        && !(strContains rf.2 "temp") then
      some (pathJoin rf.1 rf.2)
    else none

/-- Whether a full path contains one of the result markers (line 118). -/
def hasMarker (f : String) : Bool :=
  strContains f "lipsync_output" || strContains f "task1"

/-- The selection loop (lines 114-120): start from the first found file, take
the first one whose full path contains a marker. `none` when nothing found. -/
def pickTarget (output_files : List String) : Option String :=
  match output_files with
  | [] => none
  | f0 :: _ => some ((output_files.find? hasMarker).getD f0)

/-- The body of the `try` block (lines 85-137): cleanup, subprocess call,
scan, selection, copy, size query.  `.error` marks the point where an
exception is raised; the trace keeps the side effects performed up to it. -/
def tryBody (env : Env) (output_path output_dir : String) (cmd : List String)
    (t0 : RunTrace) : Except String Bool × RunTrace :=
  match env.listOutputDir with
  | .error e => (.error e, t0)
  | .ok names =>
  let t1 : RunTrace := { t0 with removed := cleanup env output_dir names }
  match env.runSub cmd with
  | .error e => (.error e, t1)
  | .ok _res =>
  let t2 : RunTrace := { t1 with spawned := [cmd] }
  match env.walkRes with
  | .error e => (.error e, t2)
  | .ok walk =>
  match pickTarget (scanOutputs walk) with
  | none => (.ok false, t2)
  | some target =>
  match env.copyRes target output_path with
  | .error e => (.error e, t2)
  | .ok _ =>
  let t3 : RunTrace := { t2 with copies := [(target, output_path)] }
  match env.sizeRes output_path with
  | .error e => (.error e, t3)
  | .ok _ => (.ok true, t3)

/-- The `except Exception` clause (lines 138-140): a raised exception becomes
the return value `False`. -/
def catchFailure : Except String Bool → Bool
  | .ok b => b
  | .error _ => false

/-- `MuseTalkInference.run_inference` (lines 40-140).  Returns the Python
return value (`.ok b`) or a propagated exception (`.error e`), together with
the side-effect trace.  The `try`/`except` covers the cleanup, the subprocess
call, the scan and the copy (lines 85-140, `tryBody`/`catchFailure`); the
config save (lines 66-69) is before it, so its exception propagates. -/
def run_inference (env : Env) (video_path audio_path output_path : String)
    (o : Overrides) : Except String Bool × RunTrace :=
  if !(env.pathExists video_path) then (.ok false, {})
  else if !(env.pathExists audio_path) then (.ok false, {})
  else
    let cp := create_config video_path audio_path o
    match env.makedirsConfig with
    | .error e => (.error e, {})
    | .ok _ =>
    match env.saveConfig cp.1 with
    | .error e => (.error e, {})
    | .ok _ =>
    let t0 : RunTrace := { saved := [(config_path, cp.1)] }
    let output_dir := dirname output_path
    let r := tryBody env output_path output_dir (cmdFor output_dir cp.2) t0
    (.ok (catchFailure r.1), r.2)

/-! ## Model provisioner (`download_models.py`) -/

/-- Environment oracle for one provisioner run: which files exist on disk,
whether an HTTP download for a given target path completes, whether a failed
download raises after the output file was already opened (leaving a partial
file on disk), and the outcome of the HuggingFace bulk attempt. -/
structure DlWorld where
  /-- files currently present on disk. -/
  present : List String
  /-- the HTTP fetch plus full write for this target path completes. -/
  netOk : String → Bool
  /-- a failed download raised only after `open(filepath, 'wb')`, so a
  partial file is left behind. -/
  failLeavesFile : String → Bool
  /-- the `hf download` bulk attempt (`download_with_hf_cli`) succeeds. -/
  hfOk : Bool
  /-- the files a successful bulk attempt places on disk. -/
  hfFiles : List String

/-- `os.path.exists` against a `DlWorld`. -/
def dlExists (w : DlWorld) (p : String) : Bool := w.present.contains p

/-- `download_file(url, filepath, description)` (lines 12-36): on success the
file is on disk and `True` is returned; on failure `False` is returned and the
partial file, when one was created, is left in place (no cleanup). -/
def download_file (w : DlWorld) (url filepath description : String) :
    Bool × DlWorld :=
  let _ := url
  let _ := description
  if w.netOk filepath then (true, { w with present := filepath :: w.present })
  else if w.failLeavesFile filepath then
    (false, { w with present := filepath :: w.present })
  else (false, w)

/-- One existence-checked download pass over a list of
(filepath, url, description) entries, as in `manual_download_musetalk`,
`download_other_models` and `setup_whisper_models`: skip entries already on
disk, record each `download_file` invocation with its outcome, and fold the
per-file successes into the running flag. -/
def downloadLoop (w : DlWorld) (success : Bool)
    (trace : List (String × Bool)) :
    List (String × String × String) → Bool × DlWorld × List (String × Bool)
  | [] => (success, w, trace)
  | (fp, url, desc) :: rest =>
    if dlExists w fp then downloadLoop w success trace rest
    else
      let r := download_file w url fp desc
      downloadLoop r.2 (success && r.1) (trace ++ [(fp, r.1)]) rest

/-- The fixed MuseTalk 1.5 fallback list (lines 66-75). -/
def musetalk_models : List (String × String × String) :=
  [("models/musetalkV15/musetalk.json",
    "https://huggingface.co/TMElyralab/MuseTalk/resolve/main/musetalkV15/musetalk.json",
    "MuseTalk 1.5 config"),
   ("models/musetalkV15/unet.pth",
    "https://huggingface.co/TMElyralab/MuseTalk/resolve/main/musetalkV15/unet.pth",
    "MuseTalk 1.5 model weights (3.2GB)")]

/-- The fixed supporting-model list (lines 87-108). -/
def other_models : List (String × String × String) :=
  [("models/dwpose/dw-ll_ucoco_384.pth",
    "https://huggingface.co/yzd-v/DWPose/resolve/main/dw-ll_ucoco_384.pth",
    "DWPose model"),
   ("models/face-parse-bisent/79999_iter.pth",
    "https://huggingface.co/vivym/face-parsing-bisenet/resolve/main/79999_iter.pth",
    "Face parsing model"),
   ("models/face-parse-bisent/resnet18-5c106cde.pth",
    "https://download.pytorch.org/models/resnet18-5c106cde.pth",
    "ResNet-18 backbone"),
   ("models/sd-vae/diffusion_pytorch_model.bin",
    "https://huggingface.co/stabilityai/sd-vae-ft-mse/resolve/main/diffusion_pytorch_model.bin",
    "Stable Diffusion VAE"),
   ("models/sd-vae/config.json",
    "https://huggingface.co/stabilityai/sd-vae-ft-mse/resolve/main/config.json",
    "VAE config")]

/-- The fixed whisper file list (lines 127-131), with target paths under
`models/whisper/` as built at line 135. -/
def whisper_models : List (String × String × String) :=
  [("models/whisper/config.json",
    "https://huggingface.co/openai/whisper-tiny/resolve/main/config.json",
    "Whisper config.json"),
   ("models/whisper/preprocessor_config.json",
    "https://huggingface.co/openai/whisper-tiny/resolve/main/preprocessor_config.json",
    "Whisper preprocessor_config.json"),
   ("models/whisper/pytorch_model.bin",
    "https://huggingface.co/openai/whisper-tiny/resolve/main/pytorch_model.bin",
    "Whisper pytorch_model.bin")]

/-- `manual_download_musetalk` (lines 59-83). -/
def manual_download_musetalk (w : DlWorld) :
    Bool × DlWorld × List (String × Bool) :=
  downloadLoop w true [] musetalk_models

/-- `download_other_models` (lines 85-117). -/
def download_other_models (w : DlWorld) :
    Bool × DlWorld × List (String × Bool) :=
  downloadLoop w true [] other_models

/-- `setup_whisper_models` (lines 119-140). -/
def setup_whisper_models (w : DlWorld) :
    Bool × DlWorld × List (String × Bool) :=
  downloadLoop w true [] whisper_models

/-- `download_with_hf_cli` (lines 38-57): a successful bulk attempt places its
files on disk; any exception is caught and reported as `False`. -/
def download_with_hf_cli (w : DlWorld) : Bool × DlWorld :=
  if w.hfOk then (true, { w with present := w.hfFiles ++ w.present })
  else (false, w)

/-- The fixed critical-file list (lines 163-168). -/
def critical_files : List String :=
  ["models/musetalkV15/unet.pth",
   "models/musetalkV15/musetalk.json",
   "models/whisper/config.json",
   "models/dwpose/dw-ll_ucoco_384.pth"]

/-- `main` of the download script (lines 142-186): bulk attempt, manual
fallback when it failed, supporting models and whisper files (their returned
success flags are discarded), then the critical-file verification that alone
determines the returned success.  Also returns the final world and the
concatenated trace of `download_file` invocations. -/
def dlMain (w : DlWorld) : Bool × DlWorld × List (String × Bool) :=
  let hf := download_with_hf_cli w
  let afterMt :=
    if hf.1 then (hf.2, ([] : List (String × Bool)))
    else
      let mt := manual_download_musetalk hf.2
      (mt.2.1, mt.2.2)
  let om := download_other_models afterMt.1
  let wh := setup_whisper_models om.2.1
  let missing := critical_files.filter fun f => !(dlExists wh.2.1 f)
  (missing.isEmpty, wh.2.1, afterMt.2 ++ om.2.2 ++ wh.2.2)

/-- The download script's process exit code (lines 188-190). -/
def dlExitCode (w : DlWorld) : Nat := if (dlMain w).1 then 0 else 1

/-! ## Environment repair utility (`troubleshooting_fixes.py`) -/

/-- The alias directories `paths_to_create` (lines 17-21). -/
def whisper_alias_dirs : List String :=
  ["models/whisper", "models/whisper-tiny", "models/openai/whisper-tiny"]

/-- The three whisper filenames the fix handles (lines 30-34). -/
def whisper_required : List String :=
  ["config.json", "preprocessor_config.json", "pytorch_model.bin"]

/-- Environment oracle for the repair utility: which files exist, whether a
given `shutil.copy2` succeeds, and the outcomes of the unguarded OS calls in
`main` (directory creation and test-script creation). -/
structure FixWorld where
  /-- files currently present on disk. -/
  present : List String
  /-- `shutil.copy2 src dst` succeeds (a failure is caught and logged). -/
  copyOk : String → String → Bool
  /-- `os.makedirs(dir, exist_ok=True)` outcome (an error propagates). -/
  mkdirRes : String → Except String Unit
  /-- writing `/app/test_setup.py` (line 238) outcome (an error propagates). -/
  writeTestRes : Except String Unit
  /-- `os.chmod("/app/test_setup.py", 0o755)` (line 241) outcome. -/
  chmodRes : Except String Unit

/-- `os.path.exists` against a `FixWorld`. -/
def fwExists (w : FixWorld) (p : String) : Bool := w.present.contains p

/-- The source-set search (lines 27-35): the first alias directory whose
`config.json` exists; only `config.json` is checked, the other two paths are
assumed alongside it. -/
def findSource (w : FixWorld) : Option String :=
  whisper_alias_dirs.find? fun d => fwExists w (pathJoin d "config.json")

/-- One (src, dst) copy job of the nested loops at lines 38-48, processed in
order: skip when the source is missing or the destination already exists;
a `shutil.copy2` failure is caught; a performed copy makes the destination
present and is recorded. -/
def copyJobs (w : FixWorld) (trace : List (String × String)) :
    List (String × String) → FixWorld × List (String × String)
  | [] => (w, trace)
  | (src, dst) :: rest =>
    if fwExists w src then
      if !(fwExists w dst) then
        if w.copyOk src dst then
          copyJobs { w with present := dst :: w.present }
            (trace ++ [(src, dst)]) rest
        else copyJobs w trace rest
      else copyJobs w trace rest
    else copyJobs w trace rest

/-- The (src, dst) pairs the nested loops at lines 38-48 visit, in order:
every target directory crossed with the three source files of `srcDir`. -/
def whisperJobs (srcDir : String) : List (String × String) :=
  whisper_alias_dirs.flatMap fun target =>
    (whisper_required.map (pathJoin srcDir)).map fun src =>
      (src, pathJoin target (basename src))

/-- The copy phase of `fix_whisper_paths` (lines 26-48): when some alias
directory holds a `config.json`, walk every (target directory, source file)
pair in loop order. -/
def whisperCopyPhase (w : FixWorld) : FixWorld × List (String × String) :=
  match findSource w with
  | none => (w, [])
  | some srcDir => copyJobs w [] (whisperJobs srcDir)

/-- `fix_whisper_paths` (lines 12-48): create the three alias directories
(an `os.makedirs` failure propagates), then run the guarded copy phase. -/
def fix_whisper_paths (w : FixWorld) :
    Except String (FixWorld × List (String × String)) :=
  match whisper_alias_dirs.findSome? fun d =>
      match w.mkdirRes d with
      | .error e => some e
      | .ok _ => none with
  | some e => .error e
  | none => .ok (whisperCopyPhase w)

/-- The directory list of `create_missing_directories` (lines 54-65). -/
def ts_directories : List String :=
  ["models/musetalk", "models/musetalkV15", "models/syncnet", "models/dwpose",
   "models/face-parse-bisent", "models/sd-vae", "models/whisper",
   "configs/inference", "output", "input"]

/-- `create_missing_directories` (lines 50-70): `os.makedirs` is called for
each directory not yet present; a failure propagates out of the loop. -/
def create_missing_directories (w : FixWorld) : Except String Unit :=
  match (ts_directories.filter fun d => !(fwExists w d)).findSome? fun d =>
      match w.mkdirRes d with
      | .error e => some e
      | .ok _ => none with
  | some e => .error e
  | none => .ok ()

/-- The required-file list of `verify_model_files` (lines 142-151). -/
def ts_required_files : List String :=
  ["models/musetalkV15/unet.pth", "models/musetalkV15/musetalk.json",
   "models/whisper/config.json", "models/whisper/preprocessor_config.json",
   "models/dwpose/dw-ll_ucoco_384.pth", "models/face-parse-bisent/79999_iter.pth",
   "models/sd-vae/diffusion_pytorch_model.bin", "models/sd-vae/config.json"]

/-- `verify_model_files` (lines 138-168): `True` iff every required file is
present. -/
def verify_model_files (w : FixWorld) : Bool :=
  ts_required_files.all (fwExists w)

/-- `create_test_script` (lines 170-242): writes `/app/test_setup.py` and
chmods it; neither call is guarded, so either failure propagates. -/
def create_test_script (w : FixWorld) : Except String Unit :=
  match w.writeTestRes with
  | .error e => .error e
  | .ok _ =>
    match w.chmodRes with
    | .error e => .error e
    | .ok _ => .ok ()

/-- `main` of the troubleshooting script (lines 244-268): run the fixes in
order and finish.  The dependency installs, the xformers fix and the GPU
check catch their own exceptions and cannot change the control flow, so they
contribute nothing here; `verify_model_files`'s boolean is only printed.
`.ok b` means the process exits 0 (with `b` the printed completeness flag);
`.error e` means an uncaught exception, so a nonzero exit. -/
def ts_main (w : FixWorld) : Except String Bool :=
  match create_missing_directories w with
  | .error e => .error e
  | .ok _ =>
    match fix_whisper_paths w with
    | .error e => .error e
    | .ok fixRes =>
      let models_ok := verify_model_files fixRes.1
      match create_test_script fixRes.1 with
      | .error e => .error e
      | .ok _ => .ok models_ok

/-! ## Concrete environments used by witnesses and counterexamples -/

/-- A benign inference environment: both inputs exist, every OS call
succeeds, the output directory is empty. -/
def envBase : Env :=
  { pathExists := fun _ => true
    makedirsConfig := .ok ()
    saveConfig := fun _ => .ok ()
    listOutputDir := .ok []
    removeRes := fun _ => .ok ()
    runSub := fun _ => .ok { stdout := "", stderr := "", exitCode := 0 }
    walkRes := .ok []
    copyRes := fun _ _ => .ok ()
    sizeRes := fun _ => .ok 0 }

/-- An environment in which no input path exists. -/
def envAllAbsent : Env := { envBase with pathExists := fun _ => false }

/-- An environment in which `os.listdir` of the output directory raises
(step 4, inside the `try` block). -/
def envListFails : Env :=
  { envBase with listOutputDir := .error "io error" }

/-- An environment in which `OmegaConf.save` raises (e.g. the disk is full). -/
def envSaveFails : Env :=
  { envBase with saveConfig := fun _ => .error "disk full" }

/-- A result directory whose own path contains the marker `task1`, holding a
markerless file (listed first) and the canonical result file. -/
def envMarkerDir : Env :=
  { envBase with
    walkRes := .ok [("results/task1_run", "a.mp4"),
                    ("results/task1_run", "lipsync_output.mp4")] }

/-- The spec's example result directory: `a.mp4`, `b_temp.mp4`,
`lipsync_output.mp4`. -/
def envSpecExample : Env :=
  { envBase with
    walkRes := .ok [("results", "a.mp4"), ("results", "b_temp.mp4"),
                    ("results", "lipsync_output.mp4")] }

/-- A result directory holding no matching media file at all. -/
def envNoMedia : Env :=
  { envBase with
    walkRes := .ok [("results", "x_temp.mp4"), ("results", "notes.txt")] }

/-- A provisioner world in which the bulk attempt fails and exactly one
supporting, non-critical artifact (the VAE config) fails to download. -/
def wVaeFails : DlWorld :=
  { present := []
    netOk := fun p => p ≠ "models/sd-vae/config.json"
    failLeavesFile := fun _ => false
    hfOk := false
    hfFiles := [] }

/-- A provisioner world in which one MuseTalk weight file is already on disk. -/
def wUnetPresent : DlWorld :=
  { present := ["models/musetalkV15/unet.pth"]
    netOk := fun _ => true
    failLeavesFile := fun _ => false
    hfOk := false
    hfFiles := [] }

/-- A provisioner world in which every download raises mid-write, leaving a
partial file behind. -/
def wAllFailLeaving : DlWorld :=
  { present := []
    netOk := fun _ => false
    failLeavesFile := fun _ => true
    hfOk := false
    hfFiles := [] }

/-- A repair-utility world: `models/whisper` holds only `config.json`, while
`models/whisper-tiny` holds the complete three-file set; every copy and
every unguarded OS call succeeds. -/
def wIncompleteFirst : FixWorld :=
  { present := ["models/whisper/config.json",
                "models/whisper-tiny/config.json",
                "models/whisper-tiny/preprocessor_config.json",
                "models/whisper-tiny/pytorch_model.bin"]
    copyOk := fun _ _ => true
    mkdirRes := fun _ => .ok ()
    writeTestRes := .ok ()
    chmodRes := .ok () }

/-- A repair-utility world: `models/whisper` holds the complete set; all OS
calls succeed. -/
def wWhisperComplete : FixWorld :=
  { present := ["models/whisper/config.json",
                "models/whisper/preprocessor_config.json",
                "models/whisper/pytorch_model.bin"]
    copyOk := fun _ _ => true
    mkdirRes := fun _ => .ok ()
    writeTestRes := .ok ()
    chmodRes := .ok () }

/-- A repair-utility world in which writing `/app/test_setup.py` raises
(`/app` does not exist). -/
def wNoApp : FixWorld :=
  { present := []
    copyOk := fun _ _ => true
    mkdirRes := fun _ => .ok ()
    writeTestRes := .error "ENOENT: /app/test_setup.py"
    chmodRes := .ok () }

/-! ## Helper lemmas -/

theorem contains_of_cons_of_contains (l : List String) (a x : String)
    (h : l.contains x = true) : (a :: l).contains x = true := by
  simp only [List.contains_cons]
  simp only [List.elem_iff] at h
  simp [h]

theorem pickTarget_mem {l : List String} {t : String}
    (h : pickTarget l = some t) : t ∈ l := by
  cases l with
  | nil => simp [pickTarget] at h
  | cons f0 rest =>
    simp only [pickTarget, Option.some.injEq] at h
    cases hf : (f0 :: rest).find? hasMarker with
    | none => rw [hf] at h; simp at h; simp [h]
    | some f =>
      rw [hf] at h
      simp at h
      exact h ▸ List.mem_of_find?_eq_some hf

theorem pickTarget_marker {l : List String} {t : String}
    (h : pickTarget l = some t) (hm : l.any hasMarker = true) :
    hasMarker t = true := by
  cases l with
  | nil => simp [pickTarget] at h
  | cons f0 rest =>
    simp only [pickTarget, Option.some.injEq] at h
    cases hf : (f0 :: rest).find? hasMarker with
    | none =>
      rcases List.any_eq_true.mp hm with ⟨x, hx, hmx⟩
      exact absurd hmx (List.find?_eq_none.mp hf x hx)
    | some f =>
      rw [hf] at h
      simp at h
      exact h ▸ List.find?_some hf

theorem scanOutputs_mem {walk : List (String × String)} {t : String}
    (h : t ∈ scanOutputs walk) :
    ∃ rf ∈ walk, t = pathJoin rf.1 rf.2 ∧
      (strEndsWith rf.2 ".mp4" || strEndsWith rf.2 ".avi") = true ∧
      strContains rf.2 "temp" = false := by
  rcases List.mem_filterMap.mp h with ⟨rf, hrf, heq⟩
  by_cases hc : ((strEndsWith rf.2 ".mp4" || strEndsWith rf.2 ".avi")
      && !(strContains rf.2 "temp")) = true
  · rw [if_pos hc] at heq
    have hc' : (strEndsWith rf.2 ".mp4" || strEndsWith rf.2 ".avi") = true ∧
        strContains rf.2 "temp" = false := by
      constructor
      · exact (Bool.and_eq_true ..).mp hc |>.1
      · have := (Bool.and_eq_true ..).mp hc |>.2
        simpa using this
    exact ⟨rf, hrf, (Option.some.inj heq).symm, hc'.1, hc'.2⟩
  · rw [if_neg hc] at heq
    exact absurd heq (by simp)

/-! ## Claim theorems -/

/-- C5: `create_config` with no overrides yields the merged parameters
bbox_shift=0, batch_size=4, fps=25, version="v15", expression_scale=1.0; with
only the override bbox_shift=-3 (the resolved "natural" preset) it yields
bbox_shift=-3 with every other default unchanged. -/
theorem create_config_default_and_natural_merge :
    ∀ video audio : String,
      (create_config video audio {}).2 =
        { bbox_shift := 0, batch_size := 4, fps := 25, version := "v15"
          expression_scale := 1 } ∧
      (create_config video audio { bbox_shift := some (-3) }).2 =
        { bbox_shift := -3, batch_size := 4, fps := 25, version := "v15"
          expression_scale := 1 } := by
  intro video audio
  exact ⟨rfl, rfl⟩

/-- C1: when `video_path` or `audio_path` does not exist, `run_inference`
returns `False` and performs no side effect: no config file is saved, no file
is removed from the output directory, no subprocess is spawned (and nothing
is copied). -/
theorem run_inference_missing_input_no_side_effects :
    ∀ (env : Env) (video_path audio_path output_path : String) (o : Overrides),
      env.pathExists video_path = false ∨ env.pathExists audio_path = false →
      (run_inference env video_path audio_path output_path o).1 = .ok false ∧
      (run_inference env video_path audio_path output_path o).2.saved = [] ∧
      (run_inference env video_path audio_path output_path o).2.removed = [] ∧
      (run_inference env video_path audio_path output_path o).2.spawned = [] ∧
      (run_inference env video_path audio_path output_path o).2.copies = [] := by
  intro env v a out o h
  rcases h with h | h
  · simp [run_inference, h]
  · cases hv : env.pathExists v <;> simp [run_inference, hv, h]

/-- C1 witness: with both inputs absent, the call fails with an empty
side-effect trace. -/
theorem run_inference_missing_input_witness :
    (envAllAbsent.pathExists "input/video.mp4" = false ∨
      envAllAbsent.pathExists "input/audio.wav" = false) ∧
    ((run_inference envAllAbsent "input/video.mp4" "input/audio.wav"
        "output/result.mp4" {}).1 = .ok false ∧
      (run_inference envAllAbsent "input/video.mp4" "input/audio.wav"
        "output/result.mp4" {}).2.saved = [] ∧
      (run_inference envAllAbsent "input/video.mp4" "input/audio.wav"
        "output/result.mp4" {}).2.removed = [] ∧
      (run_inference envAllAbsent "input/video.mp4" "input/audio.wav"
        "output/result.mp4" {}).2.spawned = [] ∧
      (run_inference envAllAbsent "input/video.mp4" "input/audio.wav"
        "output/result.mp4" {}).2.copies = []) :=
  ⟨Or.inl rfl,
   run_inference_missing_input_no_side_effects envAllAbsent "input/video.mp4"
     "input/audio.wav" "output/result.mp4" {} (Or.inl rfl)⟩

/-- C2 counterexample: with both inputs present and `OmegaConf.save` raising
(step 3, config serialization and save), the exception propagates to the
caller instead of being converted into a returned failure: the config save
sits before the `try` block (line 85), which only covers steps 4-7. -/
theorem run_inference_save_exception_escapes :
    (run_inference envSaveFails "input/video.mp4" "input/audio.wav"
        "output/result.mp4" {}).1 = .error "disk full" ∧
    ∀ b : Bool,
      (run_inference envSaveFails "input/video.mp4" "input/audio.wav"
        "output/result.mp4" {}).1 ≠ .ok b := by
  constructor
  · rfl
  · intro b h
    rw [show (run_inference envSaveFails "input/video.mp4" "input/audio.wav"
        "output/result.mp4" {}).1 = .error "disk full" from rfl] at h
    exact Except.noConfusion h

/-- C2 amended: once input validation passes and step 3 (the `os.makedirs`
and the config save, which sit before the `try` block) completes without
raising, the call never propagates an exception, and whenever an exception is
raised during steps 4-7 (`tryBody` — cleanup, subprocess, scan, copy —
yields `.error`), it is converted into the returned failure `False`. -/
theorem run_inference_try_block_catches :
    ∀ (env : Env) (video_path audio_path output_path : String) (o : Overrides),
      env.pathExists video_path = true →
      env.pathExists audio_path = true →
      env.makedirsConfig = .ok () →
      env.saveConfig (create_config video_path audio_path o).1 = .ok () →
      (∃ b : Bool,
        (run_inference env video_path audio_path output_path o).1 = .ok b) ∧
      ∀ e : String,
        (tryBody env output_path (dirname output_path)
          (cmdFor (dirname output_path)
            (create_config video_path audio_path o).2)
          { saved := [(config_path,
              (create_config video_path audio_path o).1)] }).1 = .error e →
        (run_inference env video_path audio_path output_path o).1
          = .ok false := by
  intro env v a out o hv ha hm hs
  simp only [run_inference, hv, ha, hm, hs, Bool.not_true, Bool.false_eq_true,
    if_false]
  refine ⟨⟨_, rfl⟩, ?_⟩
  intro e he
  rw [he]
  rfl

/-- C2 amended witness: with `os.listdir` raising inside the `try` block
(step 4), every hypothesis holds, the call returns a boolean, and the raised
exception is converted into the returned failure `False`. -/
theorem run_inference_try_block_catches_witness :
    (envListFails.pathExists "input/video.mp4" = true ∧
     envListFails.pathExists "input/audio.wav" = true ∧
     envListFails.makedirsConfig = .ok () ∧
     envListFails.saveConfig
       (create_config "input/video.mp4" "input/audio.wav" {}).1 = .ok () ∧
     (tryBody envListFails "output/result.mp4" (dirname "output/result.mp4")
       (cmdFor (dirname "output/result.mp4")
         (create_config "input/video.mp4" "input/audio.wav" {}).2)
       { saved := [(config_path,
           (create_config "input/video.mp4" "input/audio.wav" {}).1)] }).1
       = .error "io error") ∧
    ((∃ b : Bool,
       (run_inference envListFails "input/video.mp4" "input/audio.wav"
         "output/result.mp4" {}).1 = .ok b) ∧
     (run_inference envListFails "input/video.mp4" "input/audio.wav"
       "output/result.mp4" {}).1 = .ok false) :=
  ⟨⟨rfl, rfl, rfl, rfl, rfl⟩,
   (run_inference_try_block_catches envListFails "input/video.mp4"
     "input/audio.wav" "output/result.mp4" {} rfl rfl rfl rfl).1,
   (run_inference_try_block_catches envListFails "input/video.mp4"
     "input/audio.wav" "output/result.mp4" {} rfl rfl rfl rfl).2
     "io error" rfl⟩

/-- C3 counterexample: the marker preference at line 118 tests the full
path, not the filename.  With result directory `results/task1_run` (its path
contains the marker `task1`) holding `a.mp4` and `lipsync_output.mp4`, the
scan lists both, yet the copied file is `a.mp4`, whose name contains no
marker, although `lipsync_output.mp4` (name containing a marker) was found. -/
theorem run_inference_marker_full_path_counterexample :
    envMarkerDir.walkRes = .ok [("results/task1_run", "a.mp4"),
      ("results/task1_run", "lipsync_output.mp4")] ∧
    (run_inference envMarkerDir "input/video.mp4" "input/audio.wav"
        "results/task1_run/final.mp4" {}).2.copies =
      [("results/task1_run/a.mp4", "results/task1_run/final.mp4")] ∧
    "results/task1_run/lipsync_output.mp4" ∈
      scanOutputs [("results/task1_run", "a.mp4"),
        ("results/task1_run", "lipsync_output.mp4")] ∧
    hasMarker (basename "results/task1_run/lipsync_output.mp4") = true ∧
    hasMarker (basename "results/task1_run/a.mp4") = false := by
  refine ⟨rfl, rfl, ?_, rfl, rfl⟩
  decide

/-- C3 amended: the marker preference is applied to the full path of each
found file, not to its bare filename.  Whenever the run reaches the copy,
the copied file is one of the found files (hence its filename never contains
"temp"), and whenever some found file's full path contains a marker, the
copied file's full path contains a marker. -/
theorem run_inference_target_selection :
    ∀ (env : Env) (video_path audio_path output_path : String) (o : Overrides)
      (names : List String) (sub : SubOutput) (walk : List (String × String))
      (target : String),
      env.pathExists video_path = true →
      env.pathExists audio_path = true →
      env.makedirsConfig = .ok () →
      env.saveConfig (create_config video_path audio_path o).1 = .ok () →
      env.listOutputDir = .ok names →
      env.runSub (cmdFor (dirname output_path)
        (create_config video_path audio_path o).2) = .ok sub →
      env.walkRes = .ok walk →
      pickTarget (scanOutputs walk) = some target →
      env.copyRes target output_path = .ok () →
      (run_inference env video_path audio_path output_path o).2.copies =
        [(target, output_path)] ∧
      ((scanOutputs walk).any hasMarker = true → hasMarker target = true) ∧
      (∃ rf ∈ walk, target = pathJoin rf.1 rf.2 ∧
        strContains rf.2 "temp" = false) := by
  intro env v a out o names sub walk target hv ha hm hs hL hR hW hP hC
  refine ⟨?_, fun hany => pickTarget_marker hP hany, ?_⟩
  · simp only [run_inference, tryBody, hv, ha, hm, hs, hL, hR, hW, hP, hC,
      Bool.not_true, Bool.false_eq_true, if_false]
    rcases hS : env.sizeRes out with e | n <;> simp [hS]
  · rcases scanOutputs_mem (pickTarget_mem hP) with ⟨rf, hrf, heq, _hext, htemp⟩
    exact ⟨rf, hrf, heq, htemp⟩

/-- C3 witness: the spec's example directory (`a.mp4`, `b_temp.mp4`,
`lipsync_output.mp4`, under a marker-free directory path) yields
`lipsync_output.mp4` as the copied file. -/
theorem run_inference_target_selection_witness :
    (envSpecExample.pathExists "input/video.mp4" = true ∧
     envSpecExample.pathExists "input/audio.wav" = true ∧
     envSpecExample.makedirsConfig = .ok () ∧
     envSpecExample.saveConfig
       (create_config "input/video.mp4" "input/audio.wav" {}).1 = .ok () ∧
     envSpecExample.listOutputDir = .ok [] ∧
     envSpecExample.runSub (cmdFor (dirname "results/final.avi")
       (create_config "input/video.mp4" "input/audio.wav" {}).2) =
       .ok { stdout := "", stderr := "", exitCode := 0 } ∧
     envSpecExample.walkRes = .ok [("results", "a.mp4"),
       ("results", "b_temp.mp4"), ("results", "lipsync_output.mp4")] ∧
     pickTarget (scanOutputs [("results", "a.mp4"), ("results", "b_temp.mp4"),
       ("results", "lipsync_output.mp4")]) =
       some "results/lipsync_output.mp4" ∧
     envSpecExample.copyRes "results/lipsync_output.mp4" "results/final.avi" =
       .ok ()) ∧
    ((run_inference envSpecExample "input/video.mp4" "input/audio.wav"
        "results/final.avi" {}).2.copies =
      [("results/lipsync_output.mp4", "results/final.avi")] ∧
     ((scanOutputs [("results", "a.mp4"), ("results", "b_temp.mp4"),
        ("results", "lipsync_output.mp4")]).any hasMarker = true →
       hasMarker "results/lipsync_output.mp4" = true) ∧
     (∃ rf ∈ [("results", "a.mp4"), ("results", "b_temp.mp4"),
        ("results", "lipsync_output.mp4")],
        "results/lipsync_output.mp4" = pathJoin rf.1 rf.2 ∧
        strContains rf.2 "temp" = false)) :=
  ⟨⟨rfl, rfl, rfl, rfl, rfl, rfl, rfl, by decide, rfl⟩,
   run_inference_target_selection envSpecExample "input/video.mp4"
     "input/audio.wav" "results/final.avi" {} [] _ _ _
     rfl rfl rfl rfl rfl rfl rfl (by decide) rfl⟩

/-- C4: when the recursive scan finds no non-temp `.mp4`/`.avi` file,
`run_inference` returns `False` and performs no copy, so nothing is created
or truncated at `output_path`. -/
theorem run_inference_no_output_files_fails :
    ∀ (env : Env) (video_path audio_path output_path : String) (o : Overrides)
      (names : List String) (sub : SubOutput) (walk : List (String × String)),
      env.pathExists video_path = true →
      env.pathExists audio_path = true →
      env.makedirsConfig = .ok () →
      env.saveConfig (create_config video_path audio_path o).1 = .ok () →
      env.listOutputDir = .ok names →
      env.runSub (cmdFor (dirname output_path)
        (create_config video_path audio_path o).2) = .ok sub →
      env.walkRes = .ok walk →
      scanOutputs walk = [] →
      (run_inference env video_path audio_path output_path o).1 = .ok false ∧
      (run_inference env video_path audio_path output_path o).2.copies = [] := by
  intro env v a out o names sub walk hv ha hm hs hL hR hW hscan
  simp only [run_inference, tryBody, hv, ha, hm, hs, hL, hR, hW, hscan,
    pickTarget, Bool.not_true, Bool.false_eq_true, if_false]
  refine ⟨?_, ?_⟩ <;> first | rfl | trivial

/-- C4 witness: a result directory holding only a temp clip and a text file
yields failure and an empty copy trace. -/
theorem run_inference_no_output_files_fails_witness :
    (envNoMedia.pathExists "input/video.mp4" = true ∧
     envNoMedia.pathExists "input/audio.wav" = true ∧
     envNoMedia.makedirsConfig = .ok () ∧
     envNoMedia.saveConfig
       (create_config "input/video.mp4" "input/audio.wav" {}).1 = .ok () ∧
     envNoMedia.listOutputDir = .ok [] ∧
     envNoMedia.runSub (cmdFor (dirname "results/final.mp4")
       (create_config "input/video.mp4" "input/audio.wav" {}).2) =
       .ok { stdout := "", stderr := "", exitCode := 0 } ∧
     envNoMedia.walkRes = .ok [("results", "x_temp.mp4"),
       ("results", "notes.txt")] ∧
     scanOutputs [("results", "x_temp.mp4"), ("results", "notes.txt")] = []) ∧
    ((run_inference envNoMedia "input/video.mp4" "input/audio.wav"
        "results/final.mp4" {}).1 = .ok false ∧
     (run_inference envNoMedia "input/video.mp4" "input/audio.wav"
        "results/final.mp4" {}).2.copies = []) :=
  ⟨⟨rfl, rfl, rfl, rfl, rfl, rfl, rfl, by decide⟩,
   run_inference_no_output_files_fails envNoMedia "input/video.mp4"
     "input/audio.wav" "results/final.mp4" {} [] _ _
     rfl rfl rfl rfl rfl rfl rfl (by decide)⟩

/-! ## Provisioner lemmas -/

theorem contains_append_of_contains (l1 l2 : List String) (x : String)
    (h : l2.contains x = true) : (l1 ++ l2).contains x = true := by
  simp only [List.elem_iff] at h ⊢
  exact List.mem_append_right l1 h

theorem not_mem_map_fst {α β : Type} (t : List (α × β)) (p : α)
    (h : ∀ q ∈ t, q.1 ≠ p) : p ∉ t.map Prod.fst := by
  intro hmem
  rcases List.mem_map.mp hmem with ⟨q, hq, hq1⟩
  exact h q hq hq1

theorem download_file_preserves (w : DlWorld) (u f d p : String)
    (h : dlExists w p = true) : dlExists (download_file w u f d).2 p = true := by
  unfold download_file
  by_cases hn : w.netOk f = true
  · rw [if_pos hn]
    exact contains_of_cons_of_contains _ _ _ h
  · rw [if_neg hn]
    by_cases hl : w.failLeavesFile f = true
    · rw [if_pos hl]
      exact contains_of_cons_of_contains _ _ _ h
    · rw [if_neg hl]
      exact h

theorem downloadLoop_skips (p : String) :
    ∀ (items : List (String × String × String)) (w : DlWorld) (s : Bool)
      (t : List (String × Bool)),
      dlExists w p = true → (∀ q ∈ t, q.1 ≠ p) →
      ∀ q ∈ (downloadLoop w s t items).2.2, q.1 ≠ p := by
  intro items
  induction items with
  | nil => intro w s t hp ht q hq; exact ht q hq
  | cons it rest ih =>
    intro w s t hp ht q hq
    rcases it with ⟨fp, url, desc⟩
    by_cases he : dlExists w fp = true
    · rw [downloadLoop, if_pos he] at hq
      exact ih w s t hp ht q hq
    · rw [downloadLoop, if_neg he] at hq
      have hfp : fp ≠ p := fun hcontra => he (hcontra ▸ hp)
      refine ih _ _ _ (download_file_preserves w url fp desc p hp) ?_ q hq
      intro q' hq'
      rcases List.mem_append.mp hq' with h' | h'
      · exact ht q' h'
      · rcases List.mem_singleton.mp h' with rfl
        exact hfp

theorem downloadLoop_preserves (p : String) :
    ∀ (items : List (String × String × String)) (w : DlWorld) (s : Bool)
      (t : List (String × Bool)),
      dlExists w p = true →
      dlExists (downloadLoop w s t items).2.1 p = true := by
  intro items
  induction items with
  | nil => intro w s t hp; exact hp
  | cons it rest ih =>
    intro w s t hp
    rcases it with ⟨fp, url, desc⟩
    by_cases he : dlExists w fp = true
    · rw [downloadLoop, if_pos he]
      exact ih w s t hp
    · rw [downloadLoop, if_neg he]
      exact ih _ _ _ (download_file_preserves w url fp desc p hp)

theorem downloadLoop_flag_indep :
    ∀ (items : List (String × String × String)) (w : DlWorld) (s s' : Bool)
      (t : List (String × Bool)),
      (downloadLoop w s t items).2 = (downloadLoop w s' t items).2 := by
  intro items
  induction items with
  | nil => intro w s s' t; rfl
  | cons it rest ih =>
    intro w s s' t
    rcases it with ⟨fp, url, desc⟩
    by_cases he : dlExists w fp = true
    · rw [downloadLoop, downloadLoop, if_pos he, if_pos he]
      exact ih w s s' t
    · rw [downloadLoop, downloadLoop, if_neg he, if_neg he]
      exact ih _ _ _ _

theorem downloadLoop_append :
    ∀ (i1 i2 : List (String × String × String)) (w : DlWorld) (s : Bool)
      (t : List (String × Bool)),
      downloadLoop w s t (i1 ++ i2) =
        downloadLoop (downloadLoop w s t i1).2.1 (downloadLoop w s t i1).1
          (downloadLoop w s t i1).2.2 i2 := by
  intro i1
  induction i1 with
  | nil => intro i2 w s t; rfl
  | cons it rest ih =>
    intro i2 w s t
    rcases it with ⟨fp, url, desc⟩
    by_cases he : dlExists w fp = true
    · rw [List.cons_append, downloadLoop, if_pos he, downloadLoop, if_pos he]
      exact ih i2 w s t
    · rw [List.cons_append, downloadLoop, if_neg he, downloadLoop, if_neg he]
      exact ih i2 _ _ _

theorem filter_absent_isEmpty (W : DlWorld) (fs : List String) :
    (fs.filter fun f => !(dlExists W f)).isEmpty = true ↔
      ∀ f ∈ fs, dlExists W f = true := by
  rw [List.isEmpty_iff, List.filter_eq_nil_iff]
  constructor
  · intro h f hf
    have := h f hf
    simpa using this
  · intro h f hf
    simp [h f hf]

theorem dl_present_not_attempted (w : DlWorld) (p : String)
    (hp : dlExists w p = true) :
    (∀ q ∈ (manual_download_musetalk w).2.2, q.1 ≠ p) ∧
    (∀ q ∈ (download_other_models w).2.2, q.1 ≠ p) ∧
    (∀ q ∈ (setup_whisper_models w).2.2, q.1 ≠ p) ∧
    (∀ q ∈ (dlMain w).2.2, q.1 ≠ p) := by
  have hnil : ∀ q ∈ ([] : List (String × Bool)), q.1 ≠ p := by simp
  refine ⟨downloadLoop_skips p musetalk_models w true [] hp hnil,
    downloadLoop_skips p other_models w true [] hp hnil,
    downloadLoop_skips p whisper_models w true [] hp hnil, ?_⟩
  rcases w with ⟨pres, net, flf, hfok, hff⟩
  cases hfok with
  | true =>
    have hp1 : dlExists (⟨hff ++ pres, net, flf, true, hff⟩ : DlWorld) p =
        true := contains_append_of_contains hff pres p hp
    have hp2 := downloadLoop_preserves p other_models
      (⟨hff ++ pres, net, flf, true, hff⟩ : DlWorld) true [] hp1
    intro q hq
    have hq' : q ∈ ([] : List (String × Bool)) ++
        (downloadLoop (⟨hff ++ pres, net, flf, true, hff⟩ : DlWorld)
          true [] other_models).2.2 ++
        (downloadLoop (downloadLoop
            (⟨hff ++ pres, net, flf, true, hff⟩ : DlWorld)
            true [] other_models).2.1 true [] whisper_models).2.2 := hq
    rcases List.mem_append.mp hq' with h' | h'
    · rcases List.mem_append.mp h' with h'' | h''
      · simp at h''
      · exact downloadLoop_skips p other_models _ true [] hp1 hnil q h''
    · exact downloadLoop_skips p whisper_models _ true [] hp2 hnil q h'
  | false =>
    have hp1 := downloadLoop_preserves p musetalk_models
      (⟨pres, net, flf, false, hff⟩ : DlWorld) true [] hp
    have hp2 := downloadLoop_preserves p other_models
      (downloadLoop (⟨pres, net, flf, false, hff⟩ : DlWorld)
        true [] musetalk_models).2.1 true [] hp1
    intro q hq
    have hq' : q ∈ (downloadLoop (⟨pres, net, flf, false, hff⟩ : DlWorld)
          true [] musetalk_models).2.2 ++
        (downloadLoop (downloadLoop (⟨pres, net, flf, false, hff⟩ : DlWorld)
            true [] musetalk_models).2.1 true [] other_models).2.2 ++
        (downloadLoop (downloadLoop (downloadLoop
              (⟨pres, net, flf, false, hff⟩ : DlWorld)
              true [] musetalk_models).2.1 true [] other_models).2.1
          true [] whisper_models).2.2 := hq
    rcases List.mem_append.mp hq' with h' | h'
    · rcases List.mem_append.mp h' with h'' | h''
      · exact downloadLoop_skips p musetalk_models _ true [] hp hnil q h''
      · exact downloadLoop_skips p other_models _ true [] hp1 hnil q h''
    · exact downloadLoop_skips p whisper_models _ true [] hp2 hnil q h'

/-- C6 counterexample: with the bulk attempt failing and exactly one
supporting (non-critical) download failing — the VAE config — the run still
reports overall success and exits 0, although an individual artifact download
in the run failed: `main` discards the success flags of
`download_other_models` and `setup_whisper_models` and keeps only the
critical-file existence check. -/
theorem dl_main_ignores_noncritical_failure :
    (dlMain wVaeFails).1 = true ∧
    dlExitCode wVaeFails = 0 ∧
    ("models/sd-vae/config.json", false) ∈ (dlMain wVaeFails).2.2 ∧
    (download_other_models wVaeFails).1 = false := by
  refine ⟨by decide, by decide, by decide, by decide⟩

/-- C6 amended: the download script's overall success (and exit code 0) is
equivalent to every critical file existing after all download phases, not to
the conjunction of per-file download successes; and no per-file failure
aborts the remaining downloads — the loop's world and attempt trace are
independent of the accumulated success flag, and processing a concatenated
list always continues into the tail regardless of what happened on the
prefix. -/
theorem dl_main_success_iff_critical_present :
    ∀ w : DlWorld,
      ((dlMain w).1 = true ↔
        ∀ f ∈ critical_files, dlExists (dlMain w).2.1 f = true) ∧
      (dlExitCode w = 0 ↔ (dlMain w).1 = true) ∧
      (∀ (w' : DlWorld) (s s' : Bool) (t : List (String × Bool))
        (items : List (String × String × String)),
        (downloadLoop w' s t items).2 = (downloadLoop w' s' t items).2) ∧
      (∀ (w' : DlWorld) (s : Bool) (t : List (String × Bool))
        (i1 i2 : List (String × String × String)),
        downloadLoop w' s t (i1 ++ i2) =
          downloadLoop (downloadLoop w' s t i1).2.1 (downloadLoop w' s t i1).1
            (downloadLoop w' s t i1).2.2 i2) := by
  intro w
  refine ⟨filter_absent_isEmpty _ _, ?_, ?_, ?_⟩
  · unfold dlExitCode
    by_cases h : (dlMain w).1 = true <;> simp [h]
  · intro w' s s' t items
    exact downloadLoop_flag_indep items w' s s' t
  · intro w' s t i1 i2
    exact downloadLoop_append i1 i2 w' s t

/-- C7: a file already present on disk is never passed to `download_file` by
any of the three per-file download passes (MuseTalk fallback, supporting
models, whisper files), nor anywhere in a full `main` run; hence re-running
the script after partial completion never re-downloads a present file. -/
theorem present_file_never_redownloaded :
    ∀ (w : DlWorld) (p : String),
      dlExists w p = true →
      p ∉ (manual_download_musetalk w).2.2.map Prod.fst ∧
      p ∉ (download_other_models w).2.2.map Prod.fst ∧
      p ∉ (setup_whisper_models w).2.2.map Prod.fst ∧
      p ∉ (dlMain w).2.2.map Prod.fst := by
  intro w p hp
  have h := dl_present_not_attempted w p hp
  exact ⟨not_mem_map_fst _ _ h.1, not_mem_map_fst _ _ h.2.1,
    not_mem_map_fst _ _ h.2.2.1, not_mem_map_fst _ _ h.2.2.2⟩

/-- C7 witness: with `unet.pth` already on disk, no pass attempts to
download it. -/
theorem present_file_never_redownloaded_witness :
    dlExists wUnetPresent "models/musetalkV15/unet.pth" = true ∧
    ("models/musetalkV15/unet.pth" ∉
        (manual_download_musetalk wUnetPresent).2.2.map Prod.fst ∧
      "models/musetalkV15/unet.pth" ∉
        (download_other_models wUnetPresent).2.2.map Prod.fst ∧
      "models/musetalkV15/unet.pth" ∉
        (setup_whisper_models wUnetPresent).2.2.map Prod.fst ∧
      "models/musetalkV15/unet.pth" ∉
        (dlMain wUnetPresent).2.2.map Prod.fst) :=
  ⟨rfl, present_file_never_redownloaded wUnetPresent
    "models/musetalkV15/unet.pth" rfl⟩

/-- C10: a `download_file` call that raises after the output file was opened
(partially written) returns `False` and leaves the partial file on disk;
consequently every subsequent existence-checked pass — and a full re-run of
`main` — treats the artifact as present and never retries the download. -/
theorem partial_download_blocks_retry :
    ∀ (w : DlWorld) (url fp desc : String),
      w.netOk fp = false →
      w.failLeavesFile fp = true →
      (download_file w url fp desc).1 = false ∧
      dlExists (download_file w url fp desc).2 fp = true ∧
      fp ∉ (manual_download_musetalk
        (download_file w url fp desc).2).2.2.map Prod.fst ∧
      fp ∉ (download_other_models
        (download_file w url fp desc).2).2.2.map Prod.fst ∧
      fp ∉ (setup_whisper_models
        (download_file w url fp desc).2).2.2.map Prod.fst ∧
      fp ∉ (dlMain (download_file w url fp desc).2).2.2.map Prod.fst := by
  intro w url fp desc hn hl
  have hn' : ¬ (w.netOk fp = true) := by simp [hn]
  have hres : download_file w url fp desc =
      (false, { w with present := fp :: w.present }) := by
    unfold download_file
    rw [if_neg hn', if_pos hl]
  have hpresent : dlExists (download_file w url fp desc).2 fp = true := by
    rw [hres]
    simp [dlExists, List.contains_cons]
  have hrest := dl_present_not_attempted
    (download_file w url fp desc).2 fp hpresent
  exact ⟨by rw [hres], hpresent, not_mem_map_fst _ _ hrest.1,
    not_mem_map_fst _ _ hrest.2.1, not_mem_map_fst _ _ hrest.2.2.1,
    not_mem_map_fst _ _ hrest.2.2.2⟩

/-- C10 witness: in a world where every download raises mid-write, a failed
`download_file` leaves the file behind and no pass retries it. -/
theorem partial_download_blocks_retry_witness :
    (wAllFailLeaving.netOk "models/dwpose/dw-ll_ucoco_384.pth" = false ∧
     wAllFailLeaving.failLeavesFile "models/dwpose/dw-ll_ucoco_384.pth" = true) ∧
    ((download_file wAllFailLeaving "u" "models/dwpose/dw-ll_ucoco_384.pth"
        "d").1 = false ∧
     dlExists (download_file wAllFailLeaving "u"
        "models/dwpose/dw-ll_ucoco_384.pth" "d").2
        "models/dwpose/dw-ll_ucoco_384.pth" = true ∧
     "models/dwpose/dw-ll_ucoco_384.pth" ∉ (manual_download_musetalk
        (download_file wAllFailLeaving "u" "models/dwpose/dw-ll_ucoco_384.pth"
          "d").2).2.2.map Prod.fst ∧
     "models/dwpose/dw-ll_ucoco_384.pth" ∉ (download_other_models
        (download_file wAllFailLeaving "u" "models/dwpose/dw-ll_ucoco_384.pth"
          "d").2).2.2.map Prod.fst ∧
     "models/dwpose/dw-ll_ucoco_384.pth" ∉ (setup_whisper_models
        (download_file wAllFailLeaving "u" "models/dwpose/dw-ll_ucoco_384.pth"
          "d").2).2.2.map Prod.fst ∧
     "models/dwpose/dw-ll_ucoco_384.pth" ∉ (dlMain
        (download_file wAllFailLeaving "u" "models/dwpose/dw-ll_ucoco_384.pth"
          "d").2).2.2.map Prod.fst) :=
  ⟨⟨rfl, rfl⟩, partial_download_blocks_retry wAllFailLeaving "u"
    "models/dwpose/dw-ll_ucoco_384.pth" "d" rfl rfl⟩

/-! ## Repair-utility lemmas -/

theorem not_mem_map_snd {α β : Type} (t : List (α × β)) (p : β)
    (h : ∀ q ∈ t, q.2 ≠ p) : p ∉ t.map Prod.snd := by
  intro hmem
  rcases List.mem_map.mp hmem with ⟨q, hq, hq2⟩
  exact h q hq hq2

theorem copyJobs_preserves (p : String) :
    ∀ (jobs : List (String × String)) (w : FixWorld)
      (t : List (String × String)),
      fwExists w p = true → fwExists (copyJobs w t jobs).1 p = true := by
  intro jobs
  induction jobs with
  | nil => intro w t hp; exact hp
  | cons j rest ih =>
    intro w t hp
    rcases j with ⟨src, dst⟩
    by_cases hs : fwExists w src = true
    · rw [copyJobs, if_pos hs]
      by_cases hd : (!(fwExists w dst)) = true
      · rw [if_pos hd]
        by_cases hc : w.copyOk src dst = true
        · rw [if_pos hc]
          exact ih _ _ (contains_of_cons_of_contains _ _ _ hp)
        · rw [if_neg hc]
          exact ih w t hp
      · rw [if_neg hd]
        exact ih w t hp
    · rw [copyJobs, if_neg hs]
      exact ih w t hp

theorem copyJobs_achieves (src dst : String) :
    ∀ (jobs : List (String × String)) (w : FixWorld)
      (t : List (String × String)),
      (src, dst) ∈ jobs → fwExists w src = true →
      (∀ s d, w.copyOk s d = true) →
      fwExists (copyJobs w t jobs).1 dst = true := by
  intro jobs
  induction jobs with
  | nil => intro w t hmem; simp at hmem
  | cons j rest ih =>
    intro w t hmem hsrc hcopy
    rcases j with ⟨s0, d0⟩
    rcases List.mem_cons.mp hmem with heq | hmem'
    · injection heq with h1 h2
      subst h1
      subst h2
      rw [copyJobs, if_pos hsrc]
      by_cases hd : (!(fwExists w dst)) = true
      · rw [if_pos hd, if_pos (hcopy src dst)]
        refine copyJobs_preserves dst rest _ _ ?_
        simp [fwExists, List.contains_cons]
      · rw [if_neg hd]
        have hdst : fwExists w dst = true := by
          simpa using hd
        exact copyJobs_preserves dst rest w t hdst
    · rw [copyJobs]
      by_cases hs : fwExists w s0 = true
      · rw [if_pos hs]
        by_cases hd : (!(fwExists w d0)) = true
        · rw [if_pos hd]
          by_cases hc : w.copyOk s0 d0 = true
          · rw [if_pos hc]
            exact ih _ _ hmem'
              (contains_of_cons_of_contains _ _ _ hsrc) hcopy
          · rw [if_neg hc]
            exact ih w t hmem' hsrc hcopy
        · rw [if_neg hd]
          exact ih w t hmem' hsrc hcopy
      · rw [if_neg hs]
        exact ih w t hmem' hsrc hcopy

theorem copyJobs_oracle_fields :
    ∀ (jobs : List (String × String)) (w : FixWorld)
      (t : List (String × String)),
      (copyJobs w t jobs).1.writeTestRes = w.writeTestRes ∧
      (copyJobs w t jobs).1.chmodRes = w.chmodRes := by
  intro jobs
  induction jobs with
  | nil => intro w t; exact ⟨rfl, rfl⟩
  | cons j rest ih =>
    intro w t
    rcases j with ⟨s0, d0⟩
    by_cases hs : fwExists w s0 = true
    · rw [copyJobs, if_pos hs]
      by_cases hd : (!(fwExists w d0)) = true
      · rw [if_pos hd]
        by_cases hc : w.copyOk s0 d0 = true
        · rw [if_pos hc]
          exact ih { w with present := d0 :: w.present } (t ++ [(s0, d0)])
        · rw [if_neg hc]
          exact ih w t
      · rw [if_neg hd]
        exact ih w t
    · rw [copyJobs, if_neg hs]
      exact ih w t

theorem whisperCopyPhase_oracle_fields (w : FixWorld) :
    (whisperCopyPhase w).1.writeTestRes = w.writeTestRes ∧
    (whisperCopyPhase w).1.chmodRes = w.chmodRes := by
  unfold whisperCopyPhase
  cases hf : findSource w with
  | none => exact ⟨rfl, rfl⟩
  | some srcDir => exact copyJobs_oracle_fields (whisperJobs srcDir) w []

theorem copyJobs_no_overwrite (dst : String) :
    ∀ (jobs : List (String × String)) (w : FixWorld)
      (t : List (String × String)),
      fwExists w dst = true → (∀ q ∈ t, q.2 ≠ dst) →
      ∀ q ∈ (copyJobs w t jobs).2, q.2 ≠ dst := by
  intro jobs
  induction jobs with
  | nil => intro w t _hp ht q hq; exact ht q hq
  | cons j rest ih =>
    intro w t hp ht q hq
    rcases j with ⟨s0, d0⟩
    by_cases hs : fwExists w s0 = true
    · rw [copyJobs, if_pos hs] at hq
      by_cases hd : (!(fwExists w d0)) = true
      · rw [if_pos hd] at hq
        by_cases hc : w.copyOk s0 d0 = true
        · rw [if_pos hc] at hq
          have hd0 : d0 ≠ dst := by
            intro hcontra
            subst hcontra
            revert hd
            simp [hp]
          refine ih { w with present := d0 :: w.present } (t ++ [(s0, d0)])
            (contains_of_cons_of_contains _ _ _ hp) ?_ q hq
          intro q' hq'
          rcases List.mem_append.mp hq' with h' | h'
          · exact ht q' h'
          · rcases List.mem_singleton.mp h' with rfl
            exact hd0
        · rw [if_neg hc] at hq
          exact ih w t hp ht q hq
      · rw [if_neg hd] at hq
        exact ih w t hp ht q hq
    · rw [copyJobs, if_neg hs] at hq
      exact ih w t hp ht q hq

/-- C8 counterexample: the source-set search checks only `config.json`
(line 29), not completeness.  With `models/whisper` holding only
`config.json` while `models/whisper-tiny` holds the complete three-file set,
the fix picks `models/whisper` as the source, and the alias directory
`models/openai/whisper-tiny`, which is missing the whisper files, ends up
without `preprocessor_config.json` and `pytorch_model.bin` — the first
discovered complete set is never copied there. -/
theorem fix_whisper_incomplete_source_counterexample :
    findSource wIncompleteFirst = some "models/whisper" ∧
    fwExists wIncompleteFirst "models/whisper/preprocessor_config.json"
      = false ∧
    (whisper_required.all fun f =>
      fwExists wIncompleteFirst (pathJoin "models/whisper-tiny" f)) = true ∧
    fwExists (whisperCopyPhase wIncompleteFirst).1
      "models/openai/whisper-tiny/config.json" = true ∧
    fwExists (whisperCopyPhase wIncompleteFirst).1
      "models/openai/whisper-tiny/preprocessor_config.json" = false ∧
    fwExists (whisperCopyPhase wIncompleteFirst).1
      "models/openai/whisper-tiny/pytorch_model.bin" = false := by
  refine ⟨by decide, by decide, by decide, by decide, by decide, by decide⟩

/-- C8 amended: `fix_whisper_paths` copies from the first alias directory
whose `config.json` exists (completeness is not checked); each of the three
required files that exists in that source directory is copied into every
alias directory, and a file already present at a target location is never a
copy destination (never overwritten). -/
theorem fix_whisper_copy_semantics :
    ∀ (w : FixWorld) (srcDir : String),
      findSource w = some srcDir →
      (∀ s d, w.copyOk s d = true) →
      fwExists w (pathJoin srcDir "config.json") = true ∧
      (∀ f ∈ whisper_required, ∀ target ∈ whisper_alias_dirs,
        fwExists w (pathJoin srcDir f) = true →
        fwExists (whisperCopyPhase w).1 (pathJoin target f) = true) ∧
      (∀ dst, fwExists w dst = true →
        dst ∉ (whisperCopyPhase w).2.map Prod.snd) := by
  intro w srcDir hfind hcopy
  have hfind' : whisper_alias_dirs.find?
      (fun d => fwExists w (pathJoin d "config.json")) = some srcDir := hfind
  have hsd : srcDir ∈ whisper_alias_dirs := List.mem_of_find?_eq_some hfind'
  have hcfg : fwExists w (pathJoin srcDir "config.json") = true := by
    have := List.find?_some hfind'
    simpa using this
  have hphase : whisperCopyPhase w = copyJobs w [] (whisperJobs srcDir) := by
    unfold whisperCopyPhase
    rw [hfind]
  refine ⟨hcfg, ?_, ?_⟩
  · intro f hf target htarget hsrc
    rw [hphase]
    refine copyJobs_achieves (pathJoin srcDir f) (pathJoin target f)
      (whisperJobs srcDir) w [] ?_ hsrc hcopy
    simp only [whisper_alias_dirs, List.mem_cons, List.mem_singleton,
      List.not_mem_nil, or_false] at hsd htarget
    simp only [whisper_required, List.mem_cons, List.mem_singleton,
      List.not_mem_nil, or_false] at hf
    rcases hsd with rfl | rfl | rfl <;>
      rcases htarget with rfl | rfl | rfl <;>
        rcases hf with rfl | rfl | rfl <;> decide
  · intro dst hdst
    rw [hphase]
    refine not_mem_map_snd _ _ ?_
    exact copyJobs_no_overwrite dst (whisperJobs srcDir) w [] hdst (by simp)

/-- C8 witness: with the complete set in `models/whisper`, every required
file propagates to every alias directory and nothing present is overwritten. -/
theorem fix_whisper_copy_semantics_witness :
    (findSource wWhisperComplete = some "models/whisper" ∧
     ∀ s d : String, wWhisperComplete.copyOk s d = true) ∧
    (fwExists wWhisperComplete (pathJoin "models/whisper" "config.json")
        = true ∧
     (∀ f ∈ whisper_required, ∀ target ∈ whisper_alias_dirs,
       fwExists wWhisperComplete (pathJoin "models/whisper" f) = true →
       fwExists (whisperCopyPhase wWhisperComplete).1 (pathJoin target f)
         = true) ∧
     (∀ dst, fwExists wWhisperComplete dst = true →
       dst ∉ (whisperCopyPhase wWhisperComplete).2.map Prod.snd)) :=
  ⟨⟨rfl, fun _ _ => rfl⟩,
   fix_whisper_copy_semantics wWhisperComplete "models/whisper" rfl
     (fun _ _ => rfl)⟩

/-- C9 counterexample: the write of `/app/test_setup.py` in
`create_test_script` (line 238) is not guarded by any `try`; in a starting
state where it raises (e.g. `/app` absent), the exception escapes `main` and
the process does not exit 0. -/
theorem ts_main_unguarded_write_counterexample :
    ts_main wNoApp = .error "ENOENT: /app/test_setup.py" ∧
    ∀ b : Bool, ts_main wNoApp ≠ .ok b := by
  constructor
  · rfl
  · intro b h
    rw [show ts_main wNoApp = .error "ENOENT: /app/test_setup.py"
      from rfl] at h
    exact Except.noConfusion h

/-- C9 amended: the troubleshooting script exits 0 whenever its unguarded
filesystem operations (`os.makedirs` in `create_missing_directories` and
`fix_whisper_paths`, and writing/chmodding `/app/test_setup.py`) succeed;
the guarded per-fix failures (file copies, dependency installs, xformers,
GPU check, missing model files) never change the exit code — the returned
completeness flag is only printed. -/
theorem ts_main_ok_when_unguarded_ops_succeed :
    ∀ w : FixWorld,
      (∀ d, w.mkdirRes d = .ok ()) →
      w.writeTestRes = .ok () →
      w.chmodRes = .ok () →
      ts_main w = .ok (verify_model_files (whisperCopyPhase w).1) := by
  intro w hm hw hc
  have h1 : create_missing_directories w = .ok () := by
    unfold create_missing_directories
    have hX : ((ts_directories.filter fun d => !(fwExists w d)).findSome?
        fun d => match w.mkdirRes d with
          | .error e => some e
          | .ok _ => none) = none := by
      refine List.findSome?_eq_none_iff.mpr ?_
      intro d _
      rw [hm d]
    rw [hX]
  have h2 : fix_whisper_paths w = .ok (whisperCopyPhase w) := by
    unfold fix_whisper_paths
    have hX : (whisper_alias_dirs.findSome?
        fun d => match w.mkdirRes d with
          | .error e => some e
          | .ok _ => none) = none := by
      refine List.findSome?_eq_none_iff.mpr ?_
      intro d _
      rw [hm d]
    rw [hX]
  have h3 : create_test_script (whisperCopyPhase w).1 = .ok () := by
    unfold create_test_script
    rw [(whisperCopyPhase_oracle_fields w).1, hw,
      (whisperCopyPhase_oracle_fields w).2, hc]
  simp only [ts_main, h1, h2, h3]

/-- C9 amended witness: in a world where directory creation and the test
script write succeed, the script finishes normally (exit 0). -/
theorem ts_main_ok_when_unguarded_ops_succeed_witness :
    ((∀ d, wWhisperComplete.mkdirRes d = .ok ()) ∧
     wWhisperComplete.writeTestRes = .ok () ∧
     wWhisperComplete.chmodRes = .ok ()) ∧
    ts_main wWhisperComplete =
      .ok (verify_model_files (whisperCopyPhase wWhisperComplete).1) :=
  ⟨⟨fun _ => rfl, rfl, rfl⟩,
   ts_main_ok_when_unguarded_ops_succeed wWhisperComplete
     (fun _ => rfl) rfl rfl⟩
